import Mathlib

/-!
Shallow embedding of `tavern/core.py` (mariocesar/tavern): the per-test stage
runner `run_test` and the per-file driver `run`, together with the message
formatting helpers `format_dict`, `format_request`, `format_response` and the
`assertion_message` template.

External collaborators (`get_request_type`, `get_expected`, `get_verifiers`,
`get_extra_sessions`, `verify_tests`, `check_env_var_settings`, `delay`,
`yaml.load_all`, `load_global_config`) are modelled as oracles carried by the
input data: each stage / test specification records the outcome the collaborator
produces.  The runners below mirror the control flow of `core.py` line by line;
logging calls and the externally observable steps of a stage are recorded in an
event trace.
-/

namespace Tavern

/-- Exceptions that can reach the code in `core.py`.  `missingFormat` models
`exceptions.MissingFormatError`, `tavernOther` any other subclass of
`exceptions.TavernException`, `assertionErr` the bare `AssertionError` raised at
the first failing verifier (line 149), `badSchema` models
`exceptions.BadSchemaError` raised by the schema validator, and `nonTavern` any
exception from outside the tavern hierarchy. -/
inductive Exc where
  | missingFormat
  | tavernOther
  | assertionErr (msg : String)
  | badSchema
  | nonTavern
deriving DecidableEq

/-- What an `except exceptions.TavernException` clause catches:
`MissingFormatError` and `BadSchemaError` are tavern exceptions; a bare
`AssertionError` and foreign exceptions are not. -/
def isTavernException : Exc → Bool
  | .missingFormat => true
  | .tavernOther => true
  | .badSchema => true
  | _ => false

/-- Modelled from the spec: the module `tavern.util.exceptions` is not under
`src/`, so the extent of the `except exceptions.TestFailError` clause in `run`
is taken from the spec's propagation policy: every test-aborting failure kind
raised by the test runner - dispatch, request and verification failures - is
caught at the file runner's per-document loop, while schema violations have
their own clause and foreign exceptions escape. -/
def isTestFailError : Exc → Bool
  | .missingFormat => true
  | .tavernOther => true
  | .assertionErr _ => true
  | _ => false

/-- The `Box` created as `tavern_box` (line 85): `env_vars` holds a copy of
`os.environ`, and `request_vars`, when present, the current stage's transient
request-derived variables (lines 122 and 161). -/
structure TavernBox where
  env_vars : List (String × String)
  request_vars : Option (List (String × String))
deriving DecidableEq

/-- A value stored in the `variables` mapping: an opaque scalar (include
variables, saved values) or the tavern box. -/
inductive Val where
  | vstr (s : String)
  | vbox (b : TavernBox)
deriving DecidableEq

/-- Contents of a Python `dict` with string keys, in insertion order. -/
abbrev VMap := List (String × Val)

/-- `d[k]` lookup. -/
def VMap.lookup : VMap → String → Option Val
  | [], _ => none
  | (k', v') :: rest, k => if k' = k then some v' else VMap.lookup rest k

/-- `d[k] = v`: replace in place when the key exists, append otherwise. -/
def VMap.insert : VMap → String → Val → VMap
  | [], k, v => [(k, v)]
  | (k', v') :: rest, k, v =>
      if k' = k then (k, v) :: rest else (k', v') :: VMap.insert rest k v

/-- `d.update(other)`: assign every entry of `other` in order. -/
def VMap.update (m other : VMap) : VMap :=
  other.foldl (fun acc kv => VMap.insert acc kv.1 kv.2) m

/-- `k in d`. -/
def VMap.hasKey (m : VMap) (k : String) : Bool :=
  (VMap.lookup m k).isSome

/-- The global configuration mapping handed to `run_test`: its optional
`variables` entry (a mutable dict, aliased - not copied - by the shallow
`dict(global_cfg)` copy on line 80 when present) and its remaining top-level
entries, which `run_test` never mutates.  (`variablesDict` models the
`"variables"` entry; `variables` is a reserved word in Lean.) -/
structure GlobalCfg where
  variablesDict : Option VMap
  rest : VMap
deriving DecidableEq

/-- The fields of `response.request` consumed by `format_request`.  `body` is
the decoded request body; the empty string stands for a falsy (absent or empty)
body, matching the `if request.body` test on line 43. -/
structure ReqForDiag where
  method : String
  url : String
  headers : List (String × String)
  body : String
deriving DecidableEq

/-- The fields of a response consumed by `format_response` and the verifiers. -/
structure Response where
  status_code : Nat
  reason : String
  headers : List (String × String)
  text : String
  request : ReqForDiag
deriving DecidableEq

/-- The polymorphic request object returned by `get_request_type`: its derived
request variables (`r.request_vars`, line 122) and the outcome of `r.run()`
(line 135). -/
structure RequestObj where
  request_vars : List (String × String)
  runResult : Except Exc Response

/-- Result of one `v.verify(response)` call: error strings and saved values. -/
structure VerifyRet where
  errors : List String
  saved : VMap

/-- A verifier as produced by `get_verifiers`.  `verify` receives the current
contents of the shared, mutable variables dict (which the verifier object holds
by reference) alongside the response. -/
structure Verifier where
  name : String
  verify : VMap → Response → VerifyRet

/-- The expected-response object produced by `get_expected`; opaque to the
core, so modelled as an uninterpreted token. -/
abbrev Expected := String

/-- One stage of a test, together with the behaviour of the external
dispatchers invoked on it.  Each dispatcher receives `test_block_config`; only
its mutable `variables` dict matters, so the oracles are functions of it. -/
structure Stage where
  name : String
  /-- Outcome of `get_request_type(stage, test_block_config, sessions)`. -/
  getRequest : VMap → Except Exc RequestObj
  /-- Outcome of `get_expected(stage, test_block_config, sessions)`. -/
  getExpected : VMap → Except Exc Expected
  /-- Outcome of `get_verifiers(stage, test_block_config, sessions, expected)`. -/
  getVerifiers : VMap → Expected → List Verifier
  /-- Modelled from the spec: `yaml_dumps([stage])` (from `tavern.util.general`,
  which is not under `src/`) renders the stage's canonical textual form; the
  stage carries that rendering as data. -/
  canonicalText : String

/-- One extra session from `get_extra_sessions`: entering its context manager
either succeeds or raises the recorded exception. -/
structure Session where
  name : String
  enter : Option Exc

/-- A truthy (non-empty) parsed test document together with the outcomes of the
external collaborators consulted about it. -/
structure TestSpec where
  test_name : String
  /-- For each include fragment, its `variables` mapping when it has one
  (`check_env_var_settings` is an external collaborator modelled as
  succeeding). -/
  includes : List (Option VMap)
  stages : List Stage
  /-- Result of the external `get_extra_sessions` collaborator. -/
  extra_sessions : List Session
  /-- Outcome of the external schema validator `verify_tests`. -/
  schemaOk : Bool

/-- Events recording the logging calls and externally observable steps of the
runners, in execution order. -/
inductive Event where
  | warnEmptyBlock (file : String)
  | warnEmptyDoc (file : String)
  | infoRunningTest (test : String)
  | sessionEnter (sname : String)
  | sessionExit (sname : String)
  | resolveRequest (stage : String) (env : VMap)
  | recordTransient (stage : String) (rv : List (String × String))
  | resolveExpected (stage : String) (env : VMap)
  | delayCall (stage : String) (phase : String)
  | infoRunningStage (stage : String)
  | issueRequest (stage : String)
  | resolveVerifiers (stage : String)
  | verifyCall (stage : String) (verifier : String) (env : VMap)
  | logFailEvt (stage : String) (verifier : Option String) (hasExpected : Bool)
  | logPassEvt (stage : String) (verifiers : List String)
  | removeTransient (stage : String)
deriving DecidableEq

/-- A single quote character, used by `pyRepr`. -/
def squote : String := (Char.ofNat 39).toString

/-- Python `repr` of a string that contains no quote or escape characters. -/
def pyRepr (s : String) : String := squote ++ s ++ squote

/-- `format_dict` (line 36). -/
def format_dict (d : List (String × String)) : String :=
  String.intercalate "\n" (d.map (fun kv => kv.1 ++ ": " ++ kv.2))

/-- `format_request` (line 40). -/
def format_request (r : ReqForDiag) : String :=
  let m := r.method ++ " " ++ r.url
  let m := m ++ "\n" ++ format_dict r.headers
  if r.body = "" then m else m ++ "\n\n" ++ r.body

/-- `format_response` (line 48). -/
def format_response (r : Response) : String :=
  "HTTP/1.1 " ++ toString r.status_code ++ " " ++ r.reason
    ++ "\n" ++ format_dict r.headers ++ "\n\n" ++ r.text

/-- Whitespace characters in the sense of Python `str.strip()`. -/
def isWs (c : Char) : Bool :=
  c = Char.ofNat 32 || c = Char.ofNat 9 || c = Char.ofNat 10
    || c = Char.ofNat 13 || c = Char.ofNat 11 || c = Char.ofNat 12

/-- Split a character list at newline characters. -/
def splitNl : List Char → List (List Char)
  | [] => [[]]
  | c :: cs =>
      if c = Char.ofNat 10 then [] :: splitNl cs
      else
        match splitNl cs with
        | l :: ls => (c :: l) :: ls
        | [] => [[c]]

/-- `textwrap.indent(text, two spaces)`: prefix every line that is not pure
whitespace. -/
def indentTwo (s : String) : String :=
  String.intercalate "\n"
    ((splitNl s.data).map
      (fun l => if l.all isWs then String.mk l else "  " ++ String.mk l))

/-- The `assertion_message` template (lines 20-33). -/
def assertion_message (name file errors stage request response : String) : String :=
  " Test " ++ pyRepr name ++ "\nfile: " ++ file ++ "\n\nfailed:\n" ++ errors
    ++ "\n\nstage:\n" ++ stage ++ "\nrequest:\n" ++ request
    ++ "\n\nresponse:\n" ++ response ++ "\n"

/-- Whether the second character list starts with the first. -/
def startsWith : List Char → List Char → Bool
  | [], _ => true
  | _ :: _, [] => false
  | p :: ps, c :: cs => p = c && startsWith ps cs

/-- Whether `pat` occurs somewhere in `l`. -/
def occursIn (pat : List Char) : List Char → Bool
  | [] => pat.isEmpty
  | c :: cs => startsWith pat (c :: cs) || occursIn pat cs

/-- Whether `pat` occurs in `s` as a substring. -/
def strContains (s pat : String) : Bool := occursIn pat.data s.data

/-- Line 122: `tavern_box.update(request_vars=r.request_vars)`.  The local
`tavern_box` is the box object installed under key `"tavern"` on line 89, so
the mutation is modelled in place on that entry. -/
def setRequestVars (vars : VMap) (rv : List (String × String)) : VMap :=
  match VMap.lookup vars "tavern" with
  | some (.vbox b) =>
      VMap.insert vars "tavern" (.vbox { b with request_vars := some rv })
  | _ => vars

/-- Line 161: `tavern_box.pop("request_vars")`, modelled likewise in place. -/
def clearRequestVars (vars : VMap) : VMap :=
  match VMap.lookup vars "tavern" with
  | some (.vbox b) =>
      VMap.insert vars "tavern" (.vbox { b with request_vars := none })
  | _ => vars

/-- The transient request-derived entry of the environment, when present. -/
def requestVarsEntry (vars : VMap) : Option (List (String × String)) :=
  match VMap.lookup vars "tavern" with
  | some (.vbox b) => b.request_vars
  | _ => none

/-- Result of running a stage (or a verifier chain): outcome, the contents of
the shared variables dict afterwards - also on the failure paths, where the
mutations made so far persist - and the emitted events. -/
structure StageOut where
  res : Except Exc Unit
  vars : VMap
  trace : List Event

/-- The verifier loop (lines 142-157): run each verifier in order; at the first
verifier with errors, log the failure and raise `AssertionError` with
`assertion_message` - note the template's test-name slot is filled with
`v.name` - otherwise merge `ret.saved` into the shared variables dict and
continue. -/
def runVerifiers (inFile : String) (stage : Stage) (resp : Response)
    (vars : VMap) : List Verifier → StageOut
  | [] => ⟨.ok (), vars, []⟩
  | v :: vs =>
      let ret := v.verify vars resp
      if ret.errors.isEmpty then
        let out := runVerifiers inFile stage resp (VMap.update vars ret.saved) vs
        ⟨out.res, out.vars, .verifyCall stage.name v.name vars :: out.trace⟩
      else
        ⟨.error (.assertionErr (assertion_message v.name inFile
            ("- " ++ String.intercalate "\n- " ret.errors)
            (indentTwo stage.canonicalText)
            (indentTwo (format_request resp.request))
            (indentTwo (format_response resp)))),
         vars,
         [.verifyCall stage.name v.name vars,
          .logFailEvt stage.name (some v.name) true]⟩

/-- One iteration of the stage loop (lines 113-162). -/
def runStage (inFile : String) (vars : VMap) (stage : Stage) : StageOut :=
  match stage.getRequest vars with
  | .error e =>
      if e = .missingFormat then
        ⟨.error e, vars,
         [.resolveRequest stage.name vars, .logFailEvt stage.name none false]⟩
      else
        ⟨.error e, vars, [.resolveRequest stage.name vars]⟩
  | .ok r =>
      let vars1 := setRequestVars vars r.request_vars
      let pre : List Event :=
        [.resolveRequest stage.name vars, .recordTransient stage.name r.request_vars]
      match stage.getExpected vars1 with
      | .error e =>
          if isTavernException e then
            ⟨.error e, vars1,
             pre ++ [.resolveExpected stage.name vars1,
                     .logFailEvt stage.name none false]⟩
          else
            ⟨.error e, vars1, pre ++ [.resolveExpected stage.name vars1]⟩
      | .ok expected =>
          let pre2 := pre ++ [.resolveExpected stage.name vars1,
                              .delayCall stage.name "before",
                              .infoRunningStage stage.name]
          match r.runResult with
          | .error e =>
              if isTavernException e then
                ⟨.error e, vars1,
                 pre2 ++ [.issueRequest stage.name,
                          .logFailEvt stage.name none true]⟩
              else
                ⟨.error e, vars1, pre2 ++ [.issueRequest stage.name]⟩
          | .ok resp =>
              let verifiers := stage.getVerifiers vars1 expected
              let vout := runVerifiers inFile stage resp vars1 verifiers
              match vout.res with
              | .error e =>
                  ⟨.error e, vout.vars,
                   pre2 ++ [.issueRequest stage.name, .resolveVerifiers stage.name]
                       ++ vout.trace⟩
              | .ok _ =>
                  ⟨.ok (), clearRequestVars vout.vars,
                   pre2 ++ [.issueRequest stage.name, .resolveVerifiers stage.name]
                       ++ vout.trace
                       ++ [.logPassEvt stage.name (verifiers.map (fun v => v.name)),
                           .removeTransient stage.name,
                           .delayCall stage.name "after"]⟩

/-- The stage loop: run the stages in document order, fail fast at the first
raising stage. -/
def runStages (inFile : String) (vars : VMap) : List Stage → StageOut
  | [] => ⟨.ok (), vars, []⟩
  | s :: rest =>
      let out := runStage inFile vars s
      match out.res with
      | .ok _ =>
          let out' := runStages inFile out.vars rest
          ⟨out'.res, out'.vars, out.trace ++ out'.trace⟩
      | .error e => ⟨.error e, out.vars, out.trace⟩

/-- Lines 105-110: enter the extra sessions in order on the `ExitStack`.
Returns the names of the successfully entered contexts (in entry order) and
the exception, if entering one of them raised: the stack then holds exactly
the earlier contexts. -/
def enterSessions : List Session → List String × Option Exc
  | [] => ([], none)
  | s :: rest =>
      match s.enter with
      | some e => ([], some e)
      | none =>
          let (acc, exc) := enterSessions rest
          (s.name :: acc, exc)

/-- Lines 80-89: the shallow `dict(global_cfg)` copy aliases the shared
`variables` dict when the global configuration has one, otherwise a fresh empty
dict is created; then the fresh tavern box is installed under `"tavern"`. -/
def initWorkingVars (g : GlobalCfg) (osEnv : List (String × String)) : VMap :=
  VMap.insert (g.variablesDict.getD []) "tavern" (.vbox ⟨osEnv, none⟩)

/-- Because of that aliasing, the mutations of the working variables dict are
visible through the global configuration exactly when the global already had a
`variables` entry. -/
def writeBack (g : GlobalCfg) (vars : VMap) : GlobalCfg :=
  match g.variablesDict with
  | some _ => { g with variablesDict := some vars }
  | none => g

/-- Lines 95-99: merge each include fragment's variables into the working
dict, in order. -/
def mergeIncludes (vars : VMap) (includes : List (Option VMap)) : VMap :=
  includes.foldl
    (fun acc inc => match inc with | some m => VMap.update acc m | none => acc)
    vars

/-- Result of `run_test`: outcome, the global configuration as observable after
the call (reflecting mutations through the aliased `variables` dict), and the
emitted events. -/
structure TestOut where
  res : Except Exc Unit
  cfg : GlobalCfg
  trace : List Event

/-- `run_test` (line 55).  `spec = none` models a falsy (`None` or empty)
`test_spec`; note the working dict and the tavern box are installed before the
emptiness test, so an aliased global sees them even for an empty document. -/
def run_test (inFile : String) (osEnv : List (String × String))
    (spec : Option TestSpec) (g : GlobalCfg) : TestOut :=
  let vars1 := initWorkingVars g osEnv
  match spec with
  | none => ⟨.ok (), writeBack g vars1, [.warnEmptyBlock inFile]⟩
  | some ts =>
      let vars2 := mergeIncludes vars1 ts.includes
      let (acquired, exc) := enterSessions ts.extra_sessions
      let enterEvts := acquired.map Event.sessionEnter
      let exitEvts := (acquired.reverse).map Event.sessionExit
      match exc with
      | some e =>
          ⟨.error e, writeBack g vars2,
           .infoRunningTest ts.test_name :: (enterEvts ++ exitEvts)⟩
      | none =>
          let sout := runStages inFile vars2 ts.stages
          ⟨sout.res, writeBack g sout.vars,
           .infoRunningTest ts.test_name :: (enterEvts ++ sout.trace ++ exitEvts)⟩

/-- How `run` records one document. -/
inductive DocResult where
  | skippedEmpty
  | invalidSchema
  | failed
  | passed
deriving DecidableEq

/-- Whether a recorded document outcome leaves the aggregate boolean true. -/
def docOk : DocResult → Bool
  | .invalidSchema => false
  | .failed => false
  | _ => true

/-- Result of the per-document loop of `run`: one record per document, the
threaded global configuration, and the emitted events. -/
structure FileOut where
  results : List DocResult
  cfg : GlobalCfg
  trace : List Event

/-- The per-document loop of `run` (lines 194-211).  A falsy document is
skipped with a warning; a schema violation or a `TestFailError` marks the
document failed and iteration continues; any other exception escapes. -/
def runDocs (inFile : String) (osEnv : List (String × String)) (g : GlobalCfg) :
    List (Option TestSpec) → Except Exc FileOut
  | [] => .ok ⟨[], g, []⟩
  | none :: rest =>
      (runDocs inFile osEnv g rest).map
        (fun o => ⟨.skippedEmpty :: o.results, o.cfg, .warnEmptyDoc inFile :: o.trace⟩)
  | some ts :: rest =>
      if ts.schemaOk then
        let tout := run_test inFile osEnv (some ts) g
        match tout.res with
        | .ok _ =>
            (runDocs inFile osEnv tout.cfg rest).map
              (fun o => ⟨.passed :: o.results, o.cfg, tout.trace ++ o.trace⟩)
        | .error e =>
            if isTestFailError e then
              (runDocs inFile osEnv tout.cfg rest).map
                (fun o => ⟨.failed :: o.results, o.cfg, tout.trace ++ o.trace⟩)
            else
              .error e
      else
        (runDocs inFile osEnv g rest).map
          (fun o => ⟨.invalidSchema :: o.results, o.cfg, o.trace⟩)

/-- `run` (line 165): the aggregate boolean over all documents of one file.
The global configuration is the output of the external `load_global_config`. -/
def run (inFile : String) (osEnv : List (String × String)) (g : GlobalCfg)
    (docs : List (Option TestSpec)) : Except Exc (Bool × GlobalCfg × List Event) :=
  (runDocs inFile osEnv g docs).map (fun o => (o.results.all docOk, o.cfg, o.trace))

/-- How a document in the file relates to the outcome `run` records for it. -/
def docMatches : Option TestSpec → DocResult → Prop
  | none, r => r = .skippedEmpty
  | some ts, r =>
      if ts.schemaOk then r = .passed ∨ r = .failed else r = .invalidSchema

/-- Projection used to name the successful result of `runDocs` in closed
statements. -/
def fileOutOf (e : Except Exc FileOut) : FileOut :=
  match e with
  | .ok o => o
  | .error _ => ⟨[], ⟨none, []⟩, []⟩

/-- Extract the message of a verification failure, if the outcome is one. -/
def errMsgOf : Except Exc Unit → Option String
  | .error (.assertionErr m) => some m
  | _ => none

/-- Whether an outcome is the `AssertionError` raised at a failing verifier. -/
def isVerificationFailure : Except Exc Unit → Bool
  | .error (.assertionErr _) => true
  | _ => false

/-- Session lifecycle events, for stating the release discipline. -/
def isSessionEvt : Event → Bool
  | .sessionEnter _ => true
  | .sessionExit _ => true
  | _ => false

/-! ### Association-list lemmas -/

theorem lookup_insert (m : VMap) (k k' : String) (v : Val) :
    VMap.lookup (VMap.insert m k' v) k =
      if k' = k then some v else VMap.lookup m k := by
  induction m with
  | nil => simp [VMap.insert, VMap.lookup]
  | cons p rest ih =>
      obtain ⟨a, b⟩ := p
      by_cases h1 : a = k'
      · by_cases h2 : k' = k <;>
          simp [VMap.insert, VMap.lookup, h1, h2]
      · by_cases h2 : a = k
        · have hk : ¬ k' = k := fun hh => h1 (h2.trans hh.symm)
          have hk2 : ¬ k = k' := fun hh => hk hh.symm
          simp [VMap.insert, VMap.lookup, h1, h2, hk, hk2]
        · simp [VMap.insert, VMap.lookup, h1, h2, ih]

theorem hasKey_insert (m : VMap) (k k' : String) (v : Val) :
    VMap.hasKey (VMap.insert m k' v) k = (k' = k || VMap.hasKey m k) := by
  by_cases h : k' = k <;> simp [VMap.hasKey, lookup_insert, h]

theorem update_nil (m : VMap) : VMap.update m [] = m := rfl

theorem update_cons (m : VMap) (p : String × Val) (rest : VMap) :
    VMap.update m (p :: rest) = VMap.update (VMap.insert m p.1 p.2) rest := rfl

theorem hasKey_update_left (m other : VMap) (k : String)
    (h : VMap.hasKey m k = true) : VMap.hasKey (VMap.update m other) k = true := by
  induction other generalizing m with
  | nil => exact h
  | cons p rest ih =>
      rw [update_cons]
      exact ih _ (by simp [hasKey_insert, h])

theorem hasKey_update_right (m other : VMap) (k : String)
    (h : VMap.hasKey other k = true) : VMap.hasKey (VMap.update m other) k = true := by
  induction other generalizing m with
  | nil => simp [VMap.hasKey, VMap.lookup] at h
  | cons p rest ih =>
      obtain ⟨a, b⟩ := p
      rw [update_cons]
      by_cases hk : VMap.hasKey rest k = true
      · exact ih _ hk
      · have hp : a = k := by
          by_contra hne
          simp [VMap.hasKey, VMap.lookup, hne] at h
          exact hk h
        exact hasKey_update_left _ _ _ (by simp [hasKey_insert, hp])

theorem hasKey_setRequestVars (vars : VMap) (rv : List (String × String))
    (k : String) (h : VMap.hasKey vars k = true) :
    VMap.hasKey (setRequestVars vars rv) k = true := by
  unfold setRequestVars
  cases hl : VMap.lookup vars "tavern" with
  | none => exact h
  | some x =>
      cases x with
      | vstr s => exact h
      | vbox b => simp [hasKey_insert, h]

theorem hasKey_clearRequestVars (vars : VMap) (k : String)
    (h : VMap.hasKey vars k = true) :
    VMap.hasKey (clearRequestVars vars) k = true := by
  unfold clearRequestVars
  cases hl : VMap.lookup vars "tavern" with
  | none => exact h
  | some x =>
      cases x with
      | vstr s => exact h
      | vbox b => simp [hasKey_insert, h]

theorem requestVarsEntry_clear (vars : VMap) :
    requestVarsEntry (clearRequestVars vars) = none := by
  unfold clearRequestVars requestVarsEntry
  cases hl : VMap.lookup vars "tavern" with
  | none => simp [hl]
  | some x =>
      cases x with
      | vstr s => simp [hl]
      | vbox b => simp [lookup_insert]

/-! ### Lemmas about the verifier loop -/

theorem runVerifiers_nil (inFile : String) (stage : Stage) (resp : Response)
    (vars : VMap) : runVerifiers inFile stage resp vars [] = ⟨.ok (), vars, []⟩ := rfl

theorem runVerifiers_cons_pass (inFile : String) (stage : Stage) (resp : Response)
    (vars : VMap) (v : Verifier) (vs : List Verifier)
    (h : (v.verify vars resp).errors = []) :
    runVerifiers inFile stage resp vars (v :: vs) =
      ⟨(runVerifiers inFile stage resp (VMap.update vars (v.verify vars resp).saved) vs).res,
       (runVerifiers inFile stage resp (VMap.update vars (v.verify vars resp).saved) vs).vars,
       .verifyCall stage.name v.name vars ::
         (runVerifiers inFile stage resp (VMap.update vars (v.verify vars resp).saved) vs).trace⟩ := by
  simp [runVerifiers, h]

theorem runVerifiers_cons_fail (inFile : String) (stage : Stage) (resp : Response)
    (vars : VMap) (v : Verifier) (vs : List Verifier) (err : String) (errs : List String)
    (h : (v.verify vars resp).errors = err :: errs) :
    runVerifiers inFile stage resp vars (v :: vs) =
      ⟨.error (.assertionErr (assertion_message v.name inFile
          ("- " ++ String.intercalate "\n- " (err :: errs))
          (indentTwo stage.canonicalText)
          (indentTwo (format_request resp.request))
          (indentTwo (format_response resp)))),
       vars,
       [.verifyCall stage.name v.name vars,
        .logFailEvt stage.name (some v.name) true]⟩ := by
  simp [runVerifiers, h]

theorem hasKey_runVerifiers (inFile : String) (stage : Stage) (resp : Response)
    (vs : List Verifier) : ∀ (vars : VMap) (k : String),
    VMap.hasKey vars k = true →
    VMap.hasKey (runVerifiers inFile stage resp vars vs).vars k = true := by
  induction vs with
  | nil => intro vars k h; simpa [runVerifiers] using h
  | cons v vs ih =>
      intro vars k h
      cases he : (v.verify vars resp).errors with
      | nil =>
          rw [runVerifiers_cons_pass _ _ _ _ _ _ he]
          exact ih _ _ (hasKey_update_left _ _ _ h)
      | cons err errs =>
          rw [runVerifiers_cons_fail _ _ _ _ _ _ _ _ he]
          exact h

theorem runVerifiers_trace_mem (inFile : String) (stage : Stage) (resp : Response)
    (vs : List Verifier) : ∀ (vars : VMap) (e : Event),
    e ∈ (runVerifiers inFile stage resp vars vs).trace →
    (∃ vn env, e = .verifyCall stage.name vn env) ∨
    (∃ vn, e = .logFailEvt stage.name (some vn) true) := by
  induction vs with
  | nil => intro vars e he; simp [runVerifiers] at he
  | cons v vs ih =>
      intro vars e he
      cases hv : (v.verify vars resp).errors with
      | nil =>
          rw [runVerifiers_cons_pass _ _ _ _ _ _ hv] at he
          rcases List.mem_cons.mp he with h1 | h2
          · exact Or.inl ⟨v.name, vars, h1⟩
          · exact ih _ _ h2
      | cons err errs =>
          rw [runVerifiers_cons_fail _ _ _ _ _ _ _ _ hv] at he
          rcases List.mem_cons.mp he with h1 | h2
          · exact Or.inl ⟨v.name, vars, h1⟩
          · simp at h2
            exact Or.inr ⟨v.name, h2⟩

theorem verifyEnv_runVerifiers (inFile : String) (stage : Stage) (resp : Response)
    (vs : List Verifier) : ∀ (vars : VMap) (k : String),
    VMap.hasKey vars k = true →
    ∀ sn vn env, Event.verifyCall sn vn env ∈ (runVerifiers inFile stage resp vars vs).trace →
      VMap.hasKey env k = true := by
  induction vs with
  | nil => intro vars k _ sn vn env he; simp [runVerifiers] at he
  | cons v vs ih =>
      intro vars k h sn vn env he
      cases hv : (v.verify vars resp).errors with
      | nil =>
          rw [runVerifiers_cons_pass _ _ _ _ _ _ hv] at he
          rcases List.mem_cons.mp he with h1 | h2
          · cases h1; exact h
          · exact ih _ _ (hasKey_update_left _ _ _ h) _ _ _ h2
      | cons err errs =>
          rw [runVerifiers_cons_fail _ _ _ _ _ _ _ _ hv] at he
          rcases List.mem_cons.mp he with h1 | h2
          · cases h1; exact h
          · simp at h2

theorem runVerifiers_append (inFile : String) (stage : Stage) (resp : Response)
    (vs1 vs2 : List Verifier) : ∀ (vars vars' : VMap) (tr1 : List Event),
    runVerifiers inFile stage resp vars vs1 = ⟨.ok (), vars', tr1⟩ →
    runVerifiers inFile stage resp vars (vs1 ++ vs2) =
      ⟨(runVerifiers inFile stage resp vars' vs2).res,
       (runVerifiers inFile stage resp vars' vs2).vars,
       tr1 ++ (runVerifiers inFile stage resp vars' vs2).trace⟩ := by
  induction vs1 with
  | nil =>
      intro vars vars' tr1 h
      rw [runVerifiers_nil] at h
      injection h with h1 h2 h3
      subst h2; subst h3
      simp
  | cons v vs1 ih =>
      intro vars vars' tr1 h
      cases hv : (v.verify vars resp).errors with
      | nil =>
          rw [runVerifiers_cons_pass _ _ _ _ _ _ hv] at h
          injection h with h1 h2 h3
          have hout : runVerifiers inFile stage resp
              (VMap.update vars (v.verify vars resp).saved) vs1 =
              ⟨.ok (), vars',
               (runVerifiers inFile stage resp
                 (VMap.update vars (v.verify vars resp).saved) vs1).trace⟩ := by
            rw [← h1, ← h2]
          have hfact := ih _ _ _ hout
          rw [List.cons_append, runVerifiers_cons_pass _ _ _ _ _ _ hv, hfact]
          subst h3
          simp
      | cons err errs =>
          rw [runVerifiers_cons_fail _ _ _ _ _ _ _ _ hv] at h
          injection h with h1 h2 h3
          exact absurd h1 (by simp)

/-! ### Branch equations for one stage -/

theorem runStage_req_missing (inFile : String) (vars : VMap) (stage : Stage)
    (h : stage.getRequest vars = .error .missingFormat) :
    runStage inFile vars stage =
      ⟨.error .missingFormat, vars,
       [.resolveRequest stage.name vars, .logFailEvt stage.name none false]⟩ := by
  simp [runStage, h]

theorem runStage_req_err (inFile : String) (vars : VMap) (stage : Stage) (e : Exc)
    (h : stage.getRequest vars = .error e) (hne : ¬ e = .missingFormat) :
    runStage inFile vars stage =
      ⟨.error e, vars, [.resolveRequest stage.name vars]⟩ := by
  simp [runStage, h, hne]

theorem runStage_exp_err_tavern (inFile : String) (vars : VMap) (stage : Stage)
    (r : RequestObj) (e : Exc)
    (h1 : stage.getRequest vars = .ok r)
    (h2 : stage.getExpected (setRequestVars vars r.request_vars) = .error e)
    (ht : isTavernException e = true) :
    runStage inFile vars stage =
      ⟨.error e, setRequestVars vars r.request_vars,
       [.resolveRequest stage.name vars,
        .recordTransient stage.name r.request_vars,
        .resolveExpected stage.name (setRequestVars vars r.request_vars),
        .logFailEvt stage.name none false]⟩ := by
  simp [runStage, h1, h2, ht]

theorem runStage_exp_err_other (inFile : String) (vars : VMap) (stage : Stage)
    (r : RequestObj) (e : Exc)
    (h1 : stage.getRequest vars = .ok r)
    (h2 : stage.getExpected (setRequestVars vars r.request_vars) = .error e)
    (ht : isTavernException e = false) :
    runStage inFile vars stage =
      ⟨.error e, setRequestVars vars r.request_vars,
       [.resolveRequest stage.name vars,
        .recordTransient stage.name r.request_vars,
        .resolveExpected stage.name (setRequestVars vars r.request_vars)]⟩ := by
  simp [runStage, h1, h2, ht]

theorem runStage_run_err_tavern (inFile : String) (vars : VMap) (stage : Stage)
    (r : RequestObj) (expected : Expected) (e : Exc)
    (h1 : stage.getRequest vars = .ok r)
    (h2 : stage.getExpected (setRequestVars vars r.request_vars) = .ok expected)
    (h3 : r.runResult = .error e)
    (ht : isTavernException e = true) :
    runStage inFile vars stage =
      ⟨.error e, setRequestVars vars r.request_vars,
       [.resolveRequest stage.name vars,
        .recordTransient stage.name r.request_vars,
        .resolveExpected stage.name (setRequestVars vars r.request_vars),
        .delayCall stage.name "before",
        .infoRunningStage stage.name,
        .issueRequest stage.name,
        .logFailEvt stage.name none true]⟩ := by
  simp [runStage, h1, h2, h3, ht]

theorem runStage_run_err_other (inFile : String) (vars : VMap) (stage : Stage)
    (r : RequestObj) (expected : Expected) (e : Exc)
    (h1 : stage.getRequest vars = .ok r)
    (h2 : stage.getExpected (setRequestVars vars r.request_vars) = .ok expected)
    (h3 : r.runResult = .error e)
    (ht : isTavernException e = false) :
    runStage inFile vars stage =
      ⟨.error e, setRequestVars vars r.request_vars,
       [.resolveRequest stage.name vars,
        .recordTransient stage.name r.request_vars,
        .resolveExpected stage.name (setRequestVars vars r.request_vars),
        .delayCall stage.name "before",
        .infoRunningStage stage.name,
        .issueRequest stage.name]⟩ := by
  simp [runStage, h1, h2, h3, ht]

theorem runStage_verify_fail (inFile : String) (vars : VMap) (stage : Stage)
    (r : RequestObj) (expected : Expected) (resp : Response) (e : Exc)
    (h1 : stage.getRequest vars = .ok r)
    (h2 : stage.getExpected (setRequestVars vars r.request_vars) = .ok expected)
    (h3 : r.runResult = .ok resp)
    (h4 : (runVerifiers inFile stage resp (setRequestVars vars r.request_vars)
            (stage.getVerifiers (setRequestVars vars r.request_vars) expected)).res
          = .error e) :
    runStage inFile vars stage =
      ⟨.error e,
       (runVerifiers inFile stage resp (setRequestVars vars r.request_vars)
         (stage.getVerifiers (setRequestVars vars r.request_vars) expected)).vars,
       [.resolveRequest stage.name vars,
        .recordTransient stage.name r.request_vars,
        .resolveExpected stage.name (setRequestVars vars r.request_vars),
        .delayCall stage.name "before",
        .infoRunningStage stage.name,
        .issueRequest stage.name,
        .resolveVerifiers stage.name]
       ++ (runVerifiers inFile stage resp (setRequestVars vars r.request_vars)
            (stage.getVerifiers (setRequestVars vars r.request_vars) expected)).trace⟩ := by
  simp [runStage, h1, h2, h3, h4]

theorem runStage_ok (inFile : String) (vars : VMap) (stage : Stage)
    (r : RequestObj) (expected : Expected) (resp : Response)
    (h1 : stage.getRequest vars = .ok r)
    (h2 : stage.getExpected (setRequestVars vars r.request_vars) = .ok expected)
    (h3 : r.runResult = .ok resp)
    (h4 : (runVerifiers inFile stage resp (setRequestVars vars r.request_vars)
            (stage.getVerifiers (setRequestVars vars r.request_vars) expected)).res
          = .ok ()) :
    runStage inFile vars stage =
      ⟨.ok (),
       clearRequestVars
         (runVerifiers inFile stage resp (setRequestVars vars r.request_vars)
           (stage.getVerifiers (setRequestVars vars r.request_vars) expected)).vars,
       [.resolveRequest stage.name vars,
        .recordTransient stage.name r.request_vars,
        .resolveExpected stage.name (setRequestVars vars r.request_vars),
        .delayCall stage.name "before",
        .infoRunningStage stage.name,
        .issueRequest stage.name,
        .resolveVerifiers stage.name]
       ++ (runVerifiers inFile stage resp (setRequestVars vars r.request_vars)
            (stage.getVerifiers (setRequestVars vars r.request_vars) expected)).trace
       ++ [.logPassEvt stage.name
             ((stage.getVerifiers (setRequestVars vars r.request_vars) expected).map
               (fun v => v.name)),
           .removeTransient stage.name,
           .delayCall stage.name "after"]⟩ := by
  simp [runStage, h1, h2, h3, h4]

/-! ### Structural properties of one stage -/

theorem runStage_main (inFile : String) (vars : VMap) (stage : Stage) (k : String) :
    (∀ e ∈ (runStage inFile vars stage).trace, isSessionEvt e = false) ∧
    ((runStage inFile vars stage).res = .ok () →
      requestVarsEntry (runStage inFile vars stage).vars = none) ∧
    (VMap.hasKey vars k = true →
      VMap.hasKey (runStage inFile vars stage).vars k = true ∧
      (∀ n env, Event.resolveRequest n env ∈ (runStage inFile vars stage).trace →
        VMap.hasKey env k = true) ∧
      (∀ sn vn env, Event.verifyCall sn vn env ∈ (runStage inFile vars stage).trace →
        VMap.hasKey env k = true)) := by
  cases hr : stage.getRequest vars with
  | error e =>
      by_cases hm : e = Exc.missingFormat
      · subst hm
        rw [runStage_req_missing _ _ _ hr]
        refine ⟨?_, ?_, ?_⟩
        · intro ev he; simp at he; rcases he with rfl | rfl <;> rfl
        · intro hok; simp at hok
        · intro hk
          refine ⟨hk, ?_, ?_⟩
          · intro n env he; simp at he
            obtain ⟨-, rfl⟩ := he; exact hk
          · intro sn vn env he; simp at he
      · rw [runStage_req_err _ _ _ _ hr hm]
        refine ⟨?_, ?_, ?_⟩
        · intro ev he; simp at he; subst he; rfl
        · intro hok; simp at hok
        · intro hk
          refine ⟨hk, ?_, ?_⟩
          · intro n env he; simp at he
            obtain ⟨-, rfl⟩ := he; exact hk
          · intro sn vn env he; simp at he
  | ok r =>
      cases hx : stage.getExpected (setRequestVars vars r.request_vars) with
      | error e =>
          cases ht : isTavernException e with
          | true =>
              rw [runStage_exp_err_tavern _ _ _ _ _ hr hx ht]
              refine ⟨?_, ?_, ?_⟩
              · intro ev he; simp at he
                rcases he with rfl | rfl | rfl | rfl <;> rfl
              · intro hok; simp at hok
              · intro hk
                have hk1 := hasKey_setRequestVars vars r.request_vars k hk
                refine ⟨hk1, ?_, ?_⟩
                · intro n env he; simp at he
                  obtain ⟨-, rfl⟩ := he; exact hk
                · intro sn vn env he; simp at he
          | false =>
              rw [runStage_exp_err_other _ _ _ _ _ hr hx ht]
              refine ⟨?_, ?_, ?_⟩
              · intro ev he; simp at he
                rcases he with rfl | rfl | rfl <;> rfl
              · intro hok; simp at hok
              · intro hk
                have hk1 := hasKey_setRequestVars vars r.request_vars k hk
                refine ⟨hk1, ?_, ?_⟩
                · intro n env he; simp at he
                  obtain ⟨-, rfl⟩ := he; exact hk
                · intro sn vn env he; simp at he
      | ok expected =>
          cases hru : r.runResult with
          | error e =>
              cases ht : isTavernException e with
              | true =>
                  rw [runStage_run_err_tavern _ _ _ _ _ _ hr hx hru ht]
                  refine ⟨?_, ?_, ?_⟩
                  · intro ev he; simp at he
                    rcases he with rfl | rfl | rfl | rfl | rfl | rfl | rfl <;> rfl
                  · intro hok; simp at hok
                  · intro hk
                    have hk1 := hasKey_setRequestVars vars r.request_vars k hk
                    refine ⟨hk1, ?_, ?_⟩
                    · intro n env he; simp at he
                      obtain ⟨-, rfl⟩ := he; exact hk
                    · intro sn vn env he; simp at he
              | false =>
                  rw [runStage_run_err_other _ _ _ _ _ _ hr hx hru ht]
                  refine ⟨?_, ?_, ?_⟩
                  · intro ev he; simp at he
                    rcases he with rfl | rfl | rfl | rfl | rfl | rfl <;> rfl
                  · intro hok; simp at hok
                  · intro hk
                    have hk1 := hasKey_setRequestVars vars r.request_vars k hk
                    refine ⟨hk1, ?_, ?_⟩
                    · intro n env he; simp at he
                      obtain ⟨-, rfl⟩ := he; exact hk
                    · intro sn vn env he; simp at he
          | ok resp =>
              cases hres : (runVerifiers inFile stage resp (setRequestVars vars r.request_vars)
                  (stage.getVerifiers (setRequestVars vars r.request_vars) expected)).res with
              | error e =>
                  rw [runStage_verify_fail _ _ _ _ _ _ _ hr hx hru hres]
                  refine ⟨?_, ?_, ?_⟩
                  · intro ev he; simp at he
                    rcases he with rfl | rfl | rfl | rfl | rfl | rfl | rfl | hmem
                    · rfl
                    · rfl
                    · rfl
                    · rfl
                    · rfl
                    · rfl
                    · rfl
                    · rcases runVerifiers_trace_mem _ _ _ _ _ _ hmem with ⟨vn, env, rfl⟩ | ⟨vn, rfl⟩
                      · rfl
                      · rfl
                  · intro hok; simp at hok
                  · intro hk
                    have hk1 := hasKey_setRequestVars vars r.request_vars k hk
                    refine ⟨hasKey_runVerifiers _ _ _ _ _ _ hk1, ?_, ?_⟩
                    · intro n env he; simp at he
                      rcases he with ⟨-, rfl⟩ | hmem
                      · exact hk
                      · rcases runVerifiers_trace_mem _ _ _ _ _ _ hmem with ⟨vn, env', hh⟩ | ⟨vn, hh⟩
                          <;> simp at hh
                    · intro sn vn env he; simp at he
                      exact verifyEnv_runVerifiers _ _ _ _ _ _ hk1 _ _ _ he
              | ok u =>
                  cases u
                  rw [runStage_ok _ _ _ _ _ _ hr hx hru hres]
                  refine ⟨?_, ?_, ?_⟩
                  · intro ev he; simp at he
                    rcases he with rfl | rfl | rfl | rfl | rfl | rfl | rfl | hmem | rfl | rfl | rfl
                    · rfl
                    · rfl
                    · rfl
                    · rfl
                    · rfl
                    · rfl
                    · rfl
                    · rcases runVerifiers_trace_mem _ _ _ _ _ _ hmem with ⟨vn, env, rfl⟩ | ⟨vn, rfl⟩
                      · rfl
                      · rfl
                    · rfl
                    · rfl
                    · rfl
                  · intro _; exact requestVarsEntry_clear _
                  · intro hk
                    have hk1 := hasKey_setRequestVars vars r.request_vars k hk
                    refine ⟨hasKey_clearRequestVars _ _
                        (hasKey_runVerifiers _ _ _ _ _ _ hk1), ?_, ?_⟩
                    · intro n env he; simp at he
                      rcases he with ⟨-, rfl⟩ | hmem
                      · exact hk
                      · rcases runVerifiers_trace_mem _ _ _ _ _ _ hmem with ⟨vn, env', hh⟩ | ⟨vn, hh⟩
                          <;> simp at hh
                    · intro sn vn env he; simp at he
                      exact verifyEnv_runVerifiers _ _ _ _ _ _ hk1 _ _ _ he

/-! ### The stage loop -/

theorem runStages_nil (inFile : String) (vars : VMap) :
    runStages inFile vars [] = ⟨.ok (), vars, []⟩ := rfl

theorem runStages_cons_ok (inFile : String) (vars : VMap) (s : Stage)
    (rest : List Stage) (h : (runStage inFile vars s).res = .ok ()) :
    runStages inFile vars (s :: rest) =
      ⟨(runStages inFile (runStage inFile vars s).vars rest).res,
       (runStages inFile (runStage inFile vars s).vars rest).vars,
       (runStage inFile vars s).trace
         ++ (runStages inFile (runStage inFile vars s).vars rest).trace⟩ := by
  simp [runStages, h]

theorem runStages_cons_err (inFile : String) (vars : VMap) (s : Stage)
    (rest : List Stage) (e : Exc) (h : (runStage inFile vars s).res = .error e) :
    runStages inFile vars (s :: rest) =
      ⟨.error e, (runStage inFile vars s).vars, (runStage inFile vars s).trace⟩ := by
  simp [runStages, h]

theorem runStages_main (inFile : String) (stages : List Stage) :
    ∀ (vars : VMap) (k : String),
    (∀ e ∈ (runStages inFile vars stages).trace, isSessionEvt e = false) ∧
    (VMap.hasKey vars k = true →
      VMap.hasKey (runStages inFile vars stages).vars k = true ∧
      (∀ n env, Event.resolveRequest n env ∈ (runStages inFile vars stages).trace →
        VMap.hasKey env k = true) ∧
      (∀ sn vn env, Event.verifyCall sn vn env ∈ (runStages inFile vars stages).trace →
        VMap.hasKey env k = true)) := by
  induction stages with
  | nil =>
      intro vars k
      rw [runStages_nil]
      refine ⟨?_, ?_⟩
      · intro e he; simp at he
      · intro hk
        refine ⟨hk, ?_, ?_⟩
        · intro n env he; simp at he
        · intro sn vn env he; simp at he
  | cons s rest ih =>
      intro vars k
      cases hres : (runStage inFile vars s).res with
      | ok u =>
          cases u
          rw [runStages_cons_ok _ _ _ _ hres]
          obtain ⟨hsess, -, hkey⟩ := runStage_main inFile vars s k
          obtain ⟨ihsess, ihkey⟩ := ih (runStage inFile vars s).vars k
          refine ⟨?_, ?_⟩
          · intro e he
            rcases List.mem_append.mp he with h1 | h2
            · exact hsess e h1
            · exact ihsess e h2
          · intro hk
            obtain ⟨hk1, hrr, hvc⟩ := hkey hk
            obtain ⟨hk2, hrr2, hvc2⟩ := ihkey hk1
            refine ⟨hk2, ?_, ?_⟩
            · intro n env he
              rcases List.mem_append.mp he with h1 | h2
              · exact hrr n env h1
              · exact hrr2 n env h2
            · intro sn vn env he
              rcases List.mem_append.mp he with h1 | h2
              · exact hvc sn vn env h1
              · exact hvc2 sn vn env h2
      | error e =>
          rw [runStages_cons_err _ _ _ _ _ hres]
          obtain ⟨hsess, -, hkey⟩ := runStage_main inFile vars s k
          refine ⟨hsess, ?_⟩
          intro hk
          obtain ⟨hk1, hrr, hvc⟩ := hkey hk
          exact ⟨hk1, hrr, hvc⟩

/-! ### Session-event counting -/

theorem count_mapExit_exit (acq : List String) (n : String) :
    ((acq.map Event.sessionExit).count (Event.sessionExit n)) = acq.count n := by
  induction acq with
  | nil => rfl
  | cons a l ih => simp [List.count_cons, ih]

theorem count_mapEnter_enter (acq : List String) (n : String) :
    ((acq.map Event.sessionEnter).count (Event.sessionEnter n)) = acq.count n := by
  induction acq with
  | nil => rfl
  | cons a l ih => simp [List.count_cons, ih]

theorem count_mapEnter_exit (acq : List String) (n : String) :
    ((acq.map Event.sessionEnter).count (Event.sessionExit n)) = 0 := by
  rw [List.count_eq_zero]
  intro hm
  rcases List.mem_map.mp hm with ⟨a, -, ha⟩
  simp at ha

theorem count_mapExit_enter (acq : List String) (n : String) :
    ((acq.map Event.sessionExit).count (Event.sessionEnter n)) = 0 := by
  rw [List.count_eq_zero]
  intro hm
  rcases List.mem_map.mp hm with ⟨a, -, ha⟩
  simp at ha

theorem count_stages_session (inFile : String) (vars : VMap) (stages : List Stage)
    (x : Event) (hx : isSessionEvt x = true) :
    ((runStages inFile vars stages).trace.count x) = 0 := by
  rw [List.count_eq_zero]
  intro hm
  have := ((runStages_main inFile stages vars "").1) x hm
  rw [this] at hx
  exact Bool.noConfusion hx

/-! ### Lemmas about `run_test` -/

theorem writeBack_none (g : GlobalCfg) (v : VMap) (h : g.variablesDict = none) :
    writeBack g v = g := by
  simp [writeBack, h]

theorem writeBack_rest (g : GlobalCfg) (v : VMap) :
    (writeBack g v).rest = g.rest := by
  rcases hg : g.variablesDict with - | v0 <;> simp [writeBack, hg]

theorem writeBack_isSome (g : GlobalCfg) (v : VMap) :
    (writeBack g v).variablesDict.isSome = g.variablesDict.isSome := by
  rcases hg : g.variablesDict with - | v0 <;> simp [writeBack, hg]

theorem enterSessions_allOk (ss : List Session)
    (h : ∀ s ∈ ss, s.enter = none) :
    enterSessions ss = (ss.map (fun s => s.name), none) := by
  induction ss with
  | nil => rfl
  | cons s rest ih =>
      have hs : s.enter = none := h s (by simp)
      have ihh := ih (fun x hx => h x (by simp [hx]))
      simp [enterSessions, hs, ihh]

theorem run_test_none (inFile : String) (osEnv : List (String × String)) (g : GlobalCfg) :
    run_test inFile osEnv none g =
      ⟨.ok (), writeBack g (initWorkingVars g osEnv), [.warnEmptyBlock inFile]⟩ := rfl

theorem run_test_some (inFile : String) (osEnv : List (String × String))
    (ts : TestSpec) (g : GlobalCfg) (acq : List String)
    (hs : enterSessions ts.extra_sessions = (acq, none)) :
    run_test inFile osEnv (some ts) g =
      ⟨(runStages inFile (mergeIncludes (initWorkingVars g osEnv) ts.includes) ts.stages).res,
       writeBack g
         (runStages inFile (mergeIncludes (initWorkingVars g osEnv) ts.includes) ts.stages).vars,
       .infoRunningTest ts.test_name ::
         (acq.map Event.sessionEnter
           ++ (runStages inFile (mergeIncludes (initWorkingVars g osEnv) ts.includes) ts.stages).trace
           ++ acq.reverse.map Event.sessionExit)⟩ := by
  simp [run_test, hs]

theorem run_test_some_enterFail (inFile : String) (osEnv : List (String × String))
    (ts : TestSpec) (g : GlobalCfg) (acq : List String) (e : Exc)
    (hs : enterSessions ts.extra_sessions = (acq, some e)) :
    run_test inFile osEnv (some ts) g =
      ⟨.error e, writeBack g (mergeIncludes (initWorkingVars g osEnv) ts.includes),
       .infoRunningTest ts.test_name ::
         (acq.map Event.sessionEnter ++ acq.reverse.map Event.sessionExit)⟩ := by
  simp [run_test, hs]

theorem run_test_cfg_shape (inFile : String) (osEnv : List (String × String))
    (spec : Option TestSpec) (g : GlobalCfg) :
    ∃ v, (run_test inFile osEnv spec g).cfg = writeBack g v := by
  cases spec with
  | none => exact ⟨initWorkingVars g osEnv, rfl⟩
  | some ts =>
      rcases hs : enterSessions ts.extra_sessions with ⟨acq, exc⟩
      cases exc with
      | some e =>
          exact ⟨mergeIncludes (initWorkingVars g osEnv) ts.includes,
            by rw [run_test_some_enterFail _ _ _ _ _ _ hs]⟩
      | none =>
          exact ⟨(runStages inFile (mergeIncludes (initWorkingVars g osEnv) ts.includes)
              ts.stages).vars,
            by rw [run_test_some _ _ _ _ _ hs]⟩

/-! ### Claims -/

/-- C5: for every test, each session resource acquired for the test is released
exactly once when the test ends, on every exit path: in the trace of
`run_test`, for every session name the number of release events equals the
number of successful acquisition events - in particular when a dispatch,
request or verification failure aborts the stage loop, and when entering a
later session fails, in which case the earlier sessions are still released
before the failure propagates. -/
theorem c5_sessions_released_once (inFile : String) (osEnv : List (String × String))
    (spec : Option TestSpec) (g : GlobalCfg) (n : String) :
    ((run_test inFile osEnv spec g).trace.count (Event.sessionExit n)) =
      ((run_test inFile osEnv spec g).trace.count (Event.sessionEnter n)) := by
  cases spec with
  | none =>
      rw [run_test_none]
      simp [List.count_singleton]
  | some ts =>
      rcases hs : enterSessions ts.extra_sessions with ⟨acq, exc⟩
      cases exc with
      | some e =>
          rw [run_test_some_enterFail _ _ _ _ _ _ hs]
          simp only [List.count_cons, List.count_append,
            count_mapEnter_enter, count_mapEnter_exit,
            count_mapExit_enter, count_mapExit_exit, List.count_reverse]
          simp
      | none =>
          rw [run_test_some _ _ _ _ _ hs]
          simp only [List.count_cons, List.count_append,
            count_mapEnter_enter, count_mapEnter_exit,
            count_mapExit_enter, count_mapExit_exit, List.count_reverse,
            count_stages_session inFile _ ts.stages (Event.sessionExit n) rfl,
            count_stages_session inFile _ ts.stages (Event.sessionEnter n) rfl]
          simp

/-- The verifier names recorded in a trace, in order. -/
def verifierNamesOf : List Event → List String :=
  fun tr => tr.foldr
    (fun e acc => match e with | .verifyCall _ vn _ => vn :: acc | _ => acc) []

theorem verifierNamesOf_runVerifiers (inFile : String) (stage : Stage)
    (resp : Response) (vs : List Verifier) : ∀ vars : VMap,
    (runVerifiers inFile stage resp vars vs).res = .ok () →
    verifierNamesOf (runVerifiers inFile stage resp vars vs).trace =
      vs.map (fun v => v.name) := by
  induction vs with
  | nil => intro vars _; rfl
  | cons v vs ih =>
      intro vars hres
      cases hv : (v.verify vars resp).errors with
      | nil =>
          rw [runVerifiers_cons_pass _ _ _ _ _ _ hv] at hres ⊢
          simp only [verifierNamesOf, List.foldr_cons]
          have := ih _ hres
          simp only [verifierNamesOf] at this
          simp [this]
      | cons err errs =>
          rw [runVerifiers_cons_fail _ _ _ _ _ _ _ _ hv] at hres
          simp at hres

/-- C8: for every stage whose collaborators succeed and whose verifiers all
pass, the stage runner performs its steps in this fixed order: resolve the
request object, record the request's derived variables as the transient entry,
resolve the expected-response specification, apply the before delay, issue the
request, run the verifiers in declaration order, and only after all verifiers
pass emit the stage-pass event, remove the transient entry, and apply the
after delay. -/
theorem c8_stage_step_order (inFile : String) (vars : VMap) (stage : Stage)
    (r : RequestObj) (expected : Expected) (resp : Response)
    (h1 : stage.getRequest vars = .ok r)
    (h2 : stage.getExpected (setRequestVars vars r.request_vars) = .ok expected)
    (h3 : r.runResult = .ok resp)
    (h4 : (runVerifiers inFile stage resp (setRequestVars vars r.request_vars)
            (stage.getVerifiers (setRequestVars vars r.request_vars) expected)).res
          = .ok ()) :
    runStage inFile vars stage =
      ⟨.ok (),
       clearRequestVars
         (runVerifiers inFile stage resp (setRequestVars vars r.request_vars)
           (stage.getVerifiers (setRequestVars vars r.request_vars) expected)).vars,
       [.resolveRequest stage.name vars,
        .recordTransient stage.name r.request_vars,
        .resolveExpected stage.name (setRequestVars vars r.request_vars),
        .delayCall stage.name "before",
        .infoRunningStage stage.name,
        .issueRequest stage.name,
        .resolveVerifiers stage.name]
       ++ (runVerifiers inFile stage resp (setRequestVars vars r.request_vars)
            (stage.getVerifiers (setRequestVars vars r.request_vars) expected)).trace
       ++ [.logPassEvt stage.name
             ((stage.getVerifiers (setRequestVars vars r.request_vars) expected).map
               (fun v => v.name)),
           .removeTransient stage.name,
           .delayCall stage.name "after"]⟩ ∧
    verifierNamesOf
      (runVerifiers inFile stage resp (setRequestVars vars r.request_vars)
        (stage.getVerifiers (setRequestVars vars r.request_vars) expected)).trace =
      (stage.getVerifiers (setRequestVars vars r.request_vars) expected).map
        (fun v => v.name) :=
  ⟨runStage_ok inFile vars stage r expected resp h1 h2 h3 h4,
   verifierNamesOf_runVerifiers inFile stage resp _ _ h4⟩

/-- Shared concrete response fixture. -/
def respW : Response :=
  ⟨200, "OK", [("content-type", "application/json")], "hello",
   ⟨"GET", "http://server/api", [("accept", "json")], ""⟩⟩

/-- Shared concrete request-object fixture whose `run()` succeeds. -/
def rOkW : RequestObj :=
  ⟨[("method", "GET"), ("url", "http://server/api")], .ok respW⟩

def vSaveW : Verifier := ⟨"status code", fun _ _ => ⟨[], [("token", .vstr "abc")]⟩⟩

def vPlainW : Verifier := ⟨"body", fun _ _ => ⟨[], []⟩⟩

def stOkW : Stage :=
  ⟨"stage one", fun _ => .ok rOkW, fun _ => .ok "expected",
   fun _ _ => [vSaveW, vPlainW], "- name: stage one"⟩

/-- Witness for C8 at a concrete two-verifier stage. -/
theorem c8_stage_step_order_witness :
    (runStage "f.yaml" [] stOkW).res = .ok () ∧
    verifierNamesOf
      (runVerifiers "f.yaml" stOkW respW (setRequestVars [] rOkW.request_vars)
        (stOkW.getVerifiers (setRequestVars [] rOkW.request_vars) "expected")).trace =
      ["status code", "body"] := by
  have h := c8_stage_step_order "f.yaml" [] stOkW rOkW "expected" respW rfl rfl rfl rfl
  constructor
  · rw [h.1]
  · exact h.2

/-- C10: during request resolution, only a `MissingFormatError` from the
request-type dispatcher is caught and logged as a stage failure before being
re-raised; any other exception from the request-type dispatcher propagates
without a logged stage-failure event; expectation resolution instead catches
and logs every `TavernException` before re-raising. -/
theorem c10_dispatch_catch_behaviour (inFile : String) (vars : VMap) (e : Exc)
    (r : RequestObj) (st1 st2 st3 : Stage) :
    (st1.getRequest vars = .error .missingFormat →
      runStage inFile vars st1 =
        ⟨.error .missingFormat, vars,
         [.resolveRequest st1.name vars, .logFailEvt st1.name none false]⟩) ∧
    (st2.getRequest vars = .error e → ¬ e = .missingFormat →
      runStage inFile vars st2 =
        ⟨.error e, vars, [.resolveRequest st2.name vars]⟩) ∧
    (st3.getRequest vars = .ok r →
      st3.getExpected (setRequestVars vars r.request_vars) = .error e →
      isTavernException e = true →
      runStage inFile vars st3 =
        ⟨.error e, setRequestVars vars r.request_vars,
         [.resolveRequest st3.name vars,
          .recordTransient st3.name r.request_vars,
          .resolveExpected st3.name (setRequestVars vars r.request_vars),
          .logFailEvt st3.name none false]⟩) :=
  ⟨fun h => runStage_req_missing inFile vars st1 h,
   fun h hne => runStage_req_err inFile vars st2 e h hne,
   fun h1 h2 ht => runStage_exp_err_tavern inFile vars st3 r e h1 h2 ht⟩

def stC10m : Stage :=
  ⟨"m stage", fun _ => .error .missingFormat, fun _ => .ok "expected",
   fun _ _ => [], "- name: m stage"⟩

def stC10o : Stage :=
  ⟨"o stage", fun _ => .error .tavernOther, fun _ => .ok "expected",
   fun _ _ => [], "- name: o stage"⟩

def stC10e : Stage :=
  ⟨"e stage", fun _ => .ok rOkW, fun _ => .error .tavernOther,
   fun _ _ => [], "- name: e stage"⟩

/-- Witness for C10 at three concrete stages. -/
theorem c10_dispatch_catch_behaviour_witness :
    (runStage "f.yaml" [] stC10m).trace =
      [.resolveRequest "m stage" [], .logFailEvt "m stage" none false] ∧
    (runStage "f.yaml" [] stC10o).trace = [.resolveRequest "o stage" []] ∧
    (runStage "f.yaml" [] stC10e).trace =
      [.resolveRequest "e stage" [],
       .recordTransient "e stage" rOkW.request_vars,
       .resolveExpected "e stage" (setRequestVars [] rOkW.request_vars),
       .logFailEvt "e stage" none false] := by
  have h := c10_dispatch_catch_behaviour "f.yaml" [] .tavernOther rOkW stC10m stC10o stC10e
  refine ⟨?_, ?_, ?_⟩
  · rw [h.1 rfl]; rfl
  · rw [h.2.1 rfl (by decide)]; rfl
  · rw [h.2.2 rfl rfl rfl]; rfl

/-- A verifier that reports one error string. -/
def vFailW : Verifier := ⟨"status code", fun _ _ => ⟨["status code 500 != 200"], []⟩⟩

def respFailW : Response :=
  ⟨500, "SERVER ERROR", [("content-type", "application/json")], "boom",
   ⟨"GET", "http://server/api", [("accept", "json")], ""⟩⟩

def rFailW : RequestObj := ⟨[("method", "GET")], .ok respFailW⟩

def stFailW : Stage :=
  ⟨"check status", fun _ => .ok rFailW, fun _ => .ok "expected",
   fun _ _ => [vFailW], "- name: check status"⟩

def tsFailW : TestSpec := ⟨"login test", [], [stFailW], [], true⟩

/-- A global configuration that already has a (empty) `variables` mapping. -/
def gVarsW : GlobalCfg := ⟨some [], []⟩

/-- C1 counterexample: in a one-stage test whose verifier fails after the
transient `request_vars` entry was installed, the verification failure
propagates out of `run_test` while the entry is still present in the
environment (observed here through the aliased global `variables` dict): the
entry is not removed before the failure propagates. -/
theorem c1_counterexample :
    isVerificationFailure (run_test "f.yaml" [] (some tsFailW) gVarsW).res = true ∧
    requestVarsEntry
        ((run_test "f.yaml" [] (some tsFailW) gVarsW).cfg.variablesDict.getD [])
      = some [("method", "GET")] :=
  ⟨rfl, rfl⟩

/-- C1 (amended): the transient request-derived entry is removed at the end of
every stage that completes successfully, so it is absent from the environment
entering any later stage; when expectation dispatch, the request or a verifier
fails after the entry was installed, the stage loop propagates the failure
immediately - no later stage of the test runs - but the entry itself is not
removed on the failure path. -/
theorem c1_transient_cleanup (inFile : String) (vars : VMap) (stage : Stage)
    (rest : List Stage) (e : Exc) :
    ((runStage inFile vars stage).res = .ok () →
      requestVarsEntry (runStage inFile vars stage).vars = none) ∧
    ((runStage inFile vars stage).res = .error e →
      runStages inFile vars (stage :: rest) =
        ⟨.error e, (runStage inFile vars stage).vars,
         (runStage inFile vars stage).trace⟩) :=
  ⟨fun h => (runStage_main inFile vars stage "").2.1 h,
   fun h => runStages_cons_err inFile vars stage rest e h⟩

/-- The working variables dict at the start of a test with empty globals. -/
def varsT : VMap := [("tavern", Val.vbox ⟨[], none⟩)]

/-- The exception raised by the failing fixture stage. -/
def excFailW : Exc :=
  match (runStage "f.yaml" varsT stFailW).res with
  | .error e => e
  | .ok _ => .nonTavern

/-- Witness for C1 (amended) at a passing and at a failing concrete stage. -/
theorem c1_transient_cleanup_witness :
    requestVarsEntry (runStage "f.yaml" varsT stOkW).vars = none ∧
    runStages "f.yaml" varsT [stFailW] =
      ⟨.error excFailW, (runStage "f.yaml" varsT stFailW).vars,
       (runStage "f.yaml" varsT stFailW).trace⟩ :=
  ⟨(c1_transient_cleanup "f.yaml" varsT stOkW [] .nonTavern).1 rfl,
   (c1_transient_cleanup "f.yaml" varsT stFailW [] excFailW).2 rfl⟩

/-- C2 counterexample: a global configuration that already contains a
`variables` mapping is mutated by `run_test`: even for an empty test document
the reserved tavern entry is installed into the shared nested dict, so after
the call the global configuration is not equal to its value before. -/
theorem c2_counterexample :
    (run_test "f.yaml" [] none gVarsW).cfg ≠ gVarsW := by decide

/-- C2 (amended): `run_test` never rebinds the top level of the shared global
configuration: when the global has no `variables` entry it is left entirely
unchanged, whether `run_test` returns or raises; when it does have one, only
that nested aliased mapping is affected - the remaining top-level entries and
the presence of the `variables` key are preserved on every exit path. -/
theorem c2_global_cfg_frame (inFile : String) (osEnv : List (String × String))
    (spec : Option TestSpec) (g : GlobalCfg) :
    (g.variablesDict = none → (run_test inFile osEnv spec g).cfg = g) ∧
    (run_test inFile osEnv spec g).cfg.rest = g.rest ∧
    (run_test inFile osEnv spec g).cfg.variablesDict.isSome
      = g.variablesDict.isSome := by
  obtain ⟨v, hv⟩ := run_test_cfg_shape inFile osEnv spec g
  rw [hv]
  exact ⟨fun h => writeBack_none g v h, writeBack_rest g v, writeBack_isSome g v⟩

/-- Witness for C2 (amended) at a concrete global without a `variables` key,
running the failing one-stage document. -/
theorem c2_global_cfg_frame_witness :
    (run_test "f.yaml" [] (some tsFailW) ⟨none, [("a", Val.vstr "b")]⟩).cfg
      = ⟨none, [("a", Val.vstr "b")]⟩ :=
  (c2_global_cfg_frame "f.yaml" [] (some tsFailW) ⟨none, [("a", Val.vstr "b")]⟩).1 rfl

/-- A non-empty test document with zero stages. -/
def tsZeroW : TestSpec := ⟨"zero stages", [], [], [], true⟩

/-- C7 counterexample: a non-empty test document with zero stages is treated as
a vacuous pass, but no warning is emitted - the trace holds only the
running-test info event - so "a warning is emitted" fails for this case. -/
theorem c7_counterexample :
    (run_test "f.yaml" [] (some tsZeroW) gVarsW).res = .ok () ∧
    (run_test "f.yaml" [] (some tsZeroW) gVarsW).trace
      = [.infoRunningTest "zero stages"] :=
  ⟨rfl, rfl⟩

/-- C7 (amended): a falsy (null or empty) test document yields a warning and a
vacuous pass; a non-empty document with zero stages (whose sessions enter
cleanly) also yields a vacuous pass - no failure is raised - but without any
warning: the warning is emitted only for falsy documents. -/
theorem c7_empty_test_pass (inFile : String) (osEnv : List (String × String))
    (g : GlobalCfg) (ts : TestSpec) :
    ((run_test inFile osEnv none g).res = .ok () ∧
      (run_test inFile osEnv none g).trace = [.warnEmptyBlock inFile]) ∧
    (ts.stages = [] → (∀ s ∈ ts.extra_sessions, s.enter = none) →
      (run_test inFile osEnv (some ts) g).res = .ok () ∧
      Event.warnEmptyBlock inFile ∉ (run_test inFile osEnv (some ts) g).trace) := by
  constructor
  · rw [run_test_none]; exact ⟨rfl, rfl⟩
  · intro hst hok
    have hs := enterSessions_allOk ts.extra_sessions hok
    rw [run_test_some inFile osEnv ts g _ hs, hst, runStages_nil]
    constructor
    · rfl
    · intro hm
      simp at hm

/-- Witness for C7 (amended) at the concrete zero-stage document. -/
theorem c7_empty_test_pass_witness :
    (run_test "f.yaml" [] none gVarsW).trace = [.warnEmptyBlock "f.yaml"] ∧
    (run_test "f.yaml" [] (some tsZeroW) gVarsW).res = .ok () ∧
    Event.warnEmptyBlock "f.yaml" ∉ (run_test "f.yaml" [] (some tsZeroW) gVarsW).trace := by
  have h := c7_empty_test_pass "f.yaml" [] gVarsW tsZeroW
  exact ⟨h.1.2, (h.2 rfl (by intro s hs; simp [tsZeroW] at hs)).1,
         (h.2 rfl (by intro s hs; simp [tsZeroW] at hs)).2⟩

/-- C6: for every stage, a variable saved by a passing verifier is merged into
the variable environment before the next verifier of the same stage runs (the
remaining verifiers run from the merged environment, in which the saved key is
present); a key present in the environment stays present in the result and in
the environment passed to every subsequent stage dispatch and verifier call;
and earlier verifiers are unaffected by later ones: a passing prefix of the
verifier chain contributes exactly its own events and environments, whatever
follows it. -/
theorem c6_saved_variables (inFile : String) (stage : Stage) (resp : Response)
    (vars vars' : VMap) (v : Verifier) (vs vs1 vs2 : List Verifier) (k : String)
    (stages : List Stage) (tr1 : List Event) :
    ((v.verify vars resp).errors = [] →
      runVerifiers inFile stage resp vars (v :: vs) =
        ⟨(runVerifiers inFile stage resp
            (VMap.update vars (v.verify vars resp).saved) vs).res,
         (runVerifiers inFile stage resp
            (VMap.update vars (v.verify vars resp).saved) vs).vars,
         .verifyCall stage.name v.name vars ::
           (runVerifiers inFile stage resp
             (VMap.update vars (v.verify vars resp).saved) vs).trace⟩) ∧
    (VMap.hasKey (v.verify vars resp).saved k = true →
      VMap.hasKey (VMap.update vars (v.verify vars resp).saved) k = true) ∧
    (VMap.hasKey vars k = true →
      VMap.hasKey (runStages inFile vars stages).vars k = true ∧
      (∀ n env, Event.resolveRequest n env ∈ (runStages inFile vars stages).trace →
        VMap.hasKey env k = true) ∧
      (∀ sn vn env, Event.verifyCall sn vn env ∈ (runStages inFile vars stages).trace →
        VMap.hasKey env k = true)) ∧
    (runVerifiers inFile stage resp vars vs1 = ⟨.ok (), vars', tr1⟩ →
      runVerifiers inFile stage resp vars (vs1 ++ vs2) =
        ⟨(runVerifiers inFile stage resp vars' vs2).res,
         (runVerifiers inFile stage resp vars' vs2).vars,
         tr1 ++ (runVerifiers inFile stage resp vars' vs2).trace⟩) :=
  ⟨fun h => runVerifiers_cons_pass inFile stage resp vars v vs h,
   fun h => hasKey_update_right vars _ k h,
   fun h => (runStages_main inFile stages vars k).2 h,
   fun h => runVerifiers_append inFile stage resp vs1 vs2 vars vars' tr1 h⟩

/-- A working variables dict that already holds a saved `token` entry. -/
def varsTok : VMap :=
  [("tavern", Val.vbox ⟨[], none⟩), ("token", Val.vstr "abc")]

/-- Witness for C6 at the concrete two-verifier stage `stOkW`. -/
theorem c6_saved_variables_witness :
    runVerifiers "f.yaml" stOkW respW varsTok [vSaveW, vPlainW] =
      ⟨(runVerifiers "f.yaml" stOkW respW
          (VMap.update varsTok (vSaveW.verify varsTok respW).saved) [vPlainW]).res,
       (runVerifiers "f.yaml" stOkW respW
          (VMap.update varsTok (vSaveW.verify varsTok respW).saved) [vPlainW]).vars,
       .verifyCall "stage one" "status code" varsTok ::
         (runVerifiers "f.yaml" stOkW respW
           (VMap.update varsTok (vSaveW.verify varsTok respW).saved) [vPlainW]).trace⟩ ∧
    VMap.hasKey (VMap.update varsTok (vSaveW.verify varsTok respW).saved) "token" = true ∧
    VMap.hasKey (runStages "f.yaml" varsTok [stOkW]).vars "token" = true ∧
    VMap.hasKey varsTok "token" = true ∧
    VMap.hasKey (setRequestVars varsTok rOkW.request_vars) "token" = true ∧
    runVerifiers "f.yaml" stOkW respW varsTok ([vSaveW] ++ [vPlainW]) =
      ⟨(runVerifiers "f.yaml" stOkW respW varsTok [vPlainW]).res,
       (runVerifiers "f.yaml" stOkW respW varsTok [vPlainW]).vars,
       [.verifyCall "stage one" "status code" varsTok]
         ++ (runVerifiers "f.yaml" stOkW respW varsTok [vPlainW]).trace⟩ := by
  have h := c6_saved_variables "f.yaml" stOkW respW varsTok varsTok vSaveW
    [vPlainW] [vSaveW] [vPlainW] "token" [stOkW]
    [.verifyCall "stage one" "status code" varsTok]
  refine ⟨h.1 rfl, h.2.1 rfl, (h.2.2.1 rfl).1,
          (h.2.2.1 rfl).2.1 "stage one" varsTok (by decide),
          (h.2.2.1 rfl).2.2 "stage one" "status code"
            (setRequestVars varsTok rOkW.request_vars) (by decide),
          h.2.2.2 rfl⟩

/-- The message of the verification failure raised by the fixture run. -/
def msgC4 : String :=
  (errMsgOf (run_test "test.tavern.yaml" [] (some tsFailW) gVarsW).res).getD ""

set_option maxRecDepth 20000 in
/-- C4 evaluated at the failing input: the verification failure raised at the
first failing verifier carries the source file, the stage dump, the request and
response dumps, and the verbatim error string, and no later verifier runs; but
the template slot rendered as `Test {...}` holds the verifier display name
"status code", and the test name "login test" occurs nowhere in the message. -/
theorem c4_message_uses_verifier_name :
    (errMsgOf (run_test "test.tavern.yaml" [] (some tsFailW) gVarsW).res).isSome = true ∧
    strContains msgC4 (" Test " ++ pyRepr "status code") = true ∧
    strContains msgC4 "login test" = false ∧
    strContains msgC4 "status code 500 != 200" = true ∧
    strContains msgC4 "file: test.tavern.yaml" = true :=
  ⟨rfl, rfl, rfl, rfl, rfl⟩

/-! ### The file runner -/

theorem runDocs_results (inFile : String) (osEnv : List (String × String))
    (docs : List (Option TestSpec)) : ∀ (g : GlobalCfg) (out : FileOut),
    runDocs inFile osEnv g docs = .ok out →
    out.results.length = docs.length ∧ List.Forall₂ docMatches docs out.results := by
  induction docs with
  | nil =>
      intro g out h
      simp only [runDocs] at h
      injection h with h2
      subst h2
      exact ⟨rfl, List.Forall₂.nil⟩
  | cons d rest ih =>
      intro g out h
      cases d with
      | none =>
          simp only [runDocs] at h
          cases hr : runDocs inFile osEnv g rest with
          | error e => rw [hr] at h; simp [Except.map] at h
          | ok o =>
              rw [hr] at h
              simp only [Except.map] at h
              injection h with h2
              subst h2
              obtain ⟨hlen, hf⟩ := ih g o hr
              exact ⟨by simp [hlen], List.Forall₂.cons rfl hf⟩
      | some ts =>
          by_cases hsch : ts.schemaOk = true
          · cases hres : (run_test inFile osEnv (some ts) g).res with
            | ok u =>
                cases u
                simp only [runDocs, hsch, if_true, hres] at h
                cases hr : runDocs inFile osEnv (run_test inFile osEnv (some ts) g).cfg rest with
                | error e => rw [hr] at h; simp [Except.map] at h
                | ok o =>
                    rw [hr] at h
                    simp only [Except.map] at h
                    injection h with h2
                    subst h2
                    obtain ⟨hlen, hf⟩ := ih _ o hr
                    refine ⟨by simp [hlen], List.Forall₂.cons ?_ hf⟩
                    simp [docMatches, hsch]
            | error e =>
                by_cases hte : isTestFailError e = true
                · simp only [runDocs, hsch, if_true, hres, hte] at h
                  cases hr : runDocs inFile osEnv (run_test inFile osEnv (some ts) g).cfg rest with
                  | error e2 => rw [hr] at h; simp [Except.map] at h
                  | ok o =>
                      rw [hr] at h
                      simp only [Except.map] at h
                      injection h with h2
                      subst h2
                      obtain ⟨hlen, hf⟩ := ih _ o hr
                      refine ⟨by simp [hlen], List.Forall₂.cons ?_ hf⟩
                      simp [docMatches, hsch]
                · simp only [runDocs, hsch, if_true, hres] at h
                  rw [if_neg hte] at h
                  exact absurd h (by simp)
          · have hsch' : ts.schemaOk = false := by
              revert hsch; cases ts.schemaOk <;> simp
            simp only [runDocs, hsch'] at h
            cases hr : runDocs inFile osEnv g rest with
            | error e => rw [hr] at h; simp [Except.map] at h
            | ok o =>
                rw [hr] at h
                simp only [Except.map] at h
                injection h with h2
                subst h2
                obtain ⟨hlen, hf⟩ := ih g o hr
                refine ⟨by simp [hlen], List.Forall₂.cons ?_ hf⟩
                simp [docMatches, hsch']

/-- C3: for every file whose per-document failures are of the caught kinds, the
file runner processes all documents in order without early exit - the outcome
list records one entry per document, a falsy document is skipped, a
schema-invalid document is recorded as invalid, and a valid document is
recorded as passed or failed - and the returned boolean is the conjunction
`all docOk` over those records, so it is true iff every non-empty document both
passed schema validation and ran without failure. -/
theorem c3_file_runner_no_early_exit (inFile : String)
    (osEnv : List (String × String)) (g : GlobalCfg)
    (docs : List (Option TestSpec)) (out : FileOut)
    (h : runDocs inFile osEnv g docs = .ok out) :
    out.results.length = docs.length ∧
    run inFile osEnv g docs = .ok (out.results.all docOk, out.cfg, out.trace) ∧
    List.Forall₂ docMatches docs out.results := by
  obtain ⟨hlen, hf⟩ := runDocs_results inFile osEnv docs g out h
  exact ⟨hlen, by simp [run, h, Except.map], hf⟩

/-- A schema-invalid document fixture. -/
def tsBadW : TestSpec := ⟨"bad schema", [], [], [], false⟩

/-- A file with one empty, one schema-invalid, one failing and one passing
document. -/
def docsW : List (Option TestSpec) :=
  [none, some tsBadW, some tsFailW, some tsZeroW]

/-- Witness for C3 at the concrete four-document file. -/
theorem c3_file_runner_no_early_exit_witness :
    (fileOutOf (runDocs "f.yaml" [] gVarsW docsW)).results.length = docsW.length ∧
    List.Forall₂ docMatches docsW
      (fileOutOf (runDocs "f.yaml" [] gVarsW docsW)).results := by
  have h := c3_file_runner_no_early_exit "f.yaml" [] gVarsW docsW
    (fileOutOf (runDocs "f.yaml" [] gVarsW docsW)) (by rfl)
  exact ⟨h.1, h.2.2⟩

/-! ### Aliasing of the shared variables dict -/

theorem hasKey_mergeIncludes (includes : List (Option VMap)) :
    ∀ (vars : VMap) (k : String), VMap.hasKey vars k = true →
    VMap.hasKey (mergeIncludes vars includes) k = true := by
  induction includes with
  | nil => intro vars k h; exact h
  | cons i rest ih =>
      intro vars k h
      have hstep : mergeIncludes vars (i :: rest) =
          mergeIncludes (match i with | some m => VMap.update vars m | none => vars)
            rest := rfl
      rw [hstep]
      cases i with
      | some m => exact ih _ _ (hasKey_update_left _ _ _ h)
      | none => exact ih _ _ h

theorem run_test_env_events (inFile : String) (osEnv : List (String × String))
    (spec : Option TestSpec) (g : GlobalCfg) (k : String)
    (hk : VMap.hasKey (g.variablesDict.getD []) k = true) :
    (∀ n env, Event.resolveRequest n env ∈ (run_test inFile osEnv spec g).trace →
      VMap.hasKey env k = true) ∧
    (∀ sn vn env, Event.verifyCall sn vn env ∈ (run_test inFile osEnv spec g).trace →
      VMap.hasKey env k = true) := by
  have hk1 : VMap.hasKey (initWorkingVars g osEnv) k = true := by
    unfold initWorkingVars; simp [hasKey_insert, hk]
  cases spec with
  | none =>
      rw [run_test_none]
      constructor
      · intro n env he; simp at he
      · intro sn vn env he; simp at he
  | some ts =>
      have hk2 := hasKey_mergeIncludes ts.includes _ k hk1
      rcases hs : enterSessions ts.extra_sessions with ⟨acq, exc⟩
      cases exc with
      | some e =>
          rw [run_test_some_enterFail _ _ _ _ _ _ hs]
          constructor
          · intro n env he; simp at he
          · intro sn vn env he; simp at he
      | none =>
          rw [run_test_some _ _ _ _ _ hs]
          obtain ⟨-, hkey⟩ := runStages_main inFile ts.stages
            (mergeIncludes (initWorkingVars g osEnv) ts.includes) k
          obtain ⟨-, hrr, hvc⟩ := hkey hk2
          constructor
          · intro n env he
            simp at he
            exact hrr n env he
          · intro sn vn env he
            simp at he
            exact hvc sn vn env he

/-- C9: when the global configuration already contains a `variables` mapping,
the per-test configuration built by `run_test` aliases that same mapping (the
copy is shallow): after a test runs, the global still has the `variables`
entry, every key present in it - include variables, the reserved tavern entry,
verifier-saved values - is present in the environment given to every request
dispatch and every verifier call of any subsequent test document, and the file
runner hands exactly this mutated configuration to the remaining documents. -/
theorem c9_shallow_copy_aliasing (inFile : String)
    (osEnv : List (String × String)) (g : GlobalCfg) (d1 d2 : Option TestSpec)
    (rest : List (Option TestSpec)) (ts : TestSpec) (k : String)
    (hg : g.variablesDict.isSome = true) :
    (run_test inFile osEnv d1 g).cfg.variablesDict.isSome = true ∧
    (VMap.hasKey ((run_test inFile osEnv d1 g).cfg.variablesDict.getD []) k = true →
      (∀ n env, Event.resolveRequest n env ∈
          (run_test inFile osEnv d2 (run_test inFile osEnv d1 g).cfg).trace →
        VMap.hasKey env k = true) ∧
      (∀ sn vn env, Event.verifyCall sn vn env ∈
          (run_test inFile osEnv d2 (run_test inFile osEnv d1 g).cfg).trace →
        VMap.hasKey env k = true)) ∧
    (d1 = some ts → ts.schemaOk = true → (run_test inFile osEnv d1 g).res = .ok () →
      runDocs inFile osEnv g (d1 :: rest) =
        (runDocs inFile osEnv (run_test inFile osEnv d1 g).cfg rest).map
          (fun o => ⟨.passed :: o.results, o.cfg,
                     (run_test inFile osEnv d1 g).trace ++ o.trace⟩)) := by
  refine ⟨?_, ?_, ?_⟩
  · obtain ⟨v, hv⟩ := run_test_cfg_shape inFile osEnv d1 g
    rw [hv, writeBack_isSome]; exact hg
  · intro hk2
    exact run_test_env_events inFile osEnv d2 _ k hk2
  · intro h1 h2 h3
    subst h1
    simp only [runDocs, h2, if_true, h3]

/-- A one-stage passing document whose verifier saves a `token` variable. -/
def tsPassW : TestSpec := ⟨"ok test", [], [stOkW], [], true⟩

/-- A second one-stage document run after it. -/
def tsUseW : TestSpec := ⟨"second test", [], [stOkW], [], true⟩

/-- Witness for C9: the token saved by the first document is present in the
environment of the second document's request dispatch and verifier call, and
the file runner threads the mutated configuration. -/
theorem c9_shallow_copy_aliasing_witness :
    (run_test "f.yaml" [] (some tsPassW) gVarsW).cfg.variablesDict.isSome = true ∧
    VMap.hasKey varsTok "token" = true ∧
    VMap.hasKey (setRequestVars varsTok rOkW.request_vars) "token" = true ∧
    runDocs "f.yaml" [] gVarsW [some tsPassW] =
      (runDocs "f.yaml" [] (run_test "f.yaml" [] (some tsPassW) gVarsW).cfg []).map
        (fun o => ⟨.passed :: o.results, o.cfg,
                   (run_test "f.yaml" [] (some tsPassW) gVarsW).trace ++ o.trace⟩) := by
  have h := c9_shallow_copy_aliasing "f.yaml" [] gVarsW (some tsPassW)
    (some tsUseW) [] tsPassW "token" rfl
  refine ⟨h.1,
          (h.2.1 (by decide)).1 "stage one" varsTok (by decide),
          (h.2.1 (by decide)).2 "stage one" "status code"
            (setRequestVars varsTok rOkW.request_vars) (by decide),
          h.2.2 rfl rfl rfl⟩

end Tavern
